import Mathlib

/-!
# Verification of `row_chaser.h` (RowChaser / RowResolver)

Shallow embedding of the `RowChaser` class from `src/row_chaser.h`:
a stateful resolver that converts a BWT row index into a flat reference
offset by repeatedly applying the backward-step (LF) mapping of the index
until the sentinel row or a marked row is reached.

The `Ebwt` collaborator (`ebwt.h`) is not part of `src/`; its pieces that
`RowChaser` consumes (`mapLF`, `joinedToTextOff`, the `SideLocus`
prefetch handle, and the constants `_offMask`, `_offRate`, `_zOff`,
`_offs`) are modelled from the spec as fields of an abstract index
record.  Assertions (`assert`, `assert_neq`, `assert_gt`, the debug
semantics of the original) are modelled as `Except.error` outcomes.

A ghost `trace` field records the prefetch-issue / step-consume events
of a chase in chronological order, so that the prefetch/step protocol
(spec §4.2) can be stated; it does not influence any other field.
-/

/-- The reserved "unset" value `0xffffffff` used by the source for both
rows and offsets. -/
def unset : Nat := 0xffffffff

/-- Ghost events of the prefetch/step protocol: `issue r` records
`sideloc_.prefetch()` on the locus built from row `r`
(`sideloc_.initFromRow(r, ...)`); `consume r` records
`ebwt_.mapLF(sideloc_)` on that locus. -/
inductive PEvent where
  | issue (row : Nat)
  | consume (row : Nat)
deriving DecidableEq, Repr

/-- Modelled from the spec: the external `CompressedTextIndex` (`Ebwt`)
collaborator.  `mapLF` is the backward-step mapping, a pure function of
the row the locus was built from (spec §6: `buildLocus` is a pure
function of `row`; `backwardStep(locus)` is pure and deterministic).
`joinedToTextOff` is `translateFlatOffset(queryLength, flatOffset)`,
returning `(sequenceId, localOffset, sequenceLength)` where the
sequence id may be the distinguished "no sequence" value `0xffffffff`. -/
structure EbwtIndex where
  offMask : Nat                         -- `_eh._offMask` (sampleMask)
  offRate : Nat                         -- `_eh._offRate` (sampleShift)
  zOff : Nat                            -- `_zOff` (sentinel row)
  offs : List Nat                       -- `_offs` (samples)
  mapLF : Nat → Nat                     -- backward step, keyed by locus row
  joinedToTextOff : Nat → Nat → Nat × Nat × Nat

/-- The mutable state of a `RowChaser`.  `sideloc` is the current
`SideLocus`, modelled by the row it was built from (`none` = invalid);
`trace` is the ghost event log of the current chase. -/
structure RowChaserState where
  prepped : Bool        -- `prepped_`
  qlen : Nat            -- `qlen_`
  row : Nat             -- `row_`
  jumps : Nat           -- `jumps_`
  sideloc : Option Nat  -- `sideloc_`
  done : Bool           -- `done_`
  off : Nat             -- `off_`
  tlen : Nat            -- `tlen_`
  trace : List PEvent   -- ghost: prefetch protocol events, oldest first
deriving DecidableEq, Repr

namespace RowChaser

/-- The constructor `RowChaser(const EbwtT& ebwt)`. -/
def init : RowChaserState :=
  { prepped := false, qlen := 0, row := unset, jumps := 0,
    sideloc := none, done := false, off := unset, tlen := 0, trace := [] }

/-- `RowChaser::prep()`: if the chase is not done, build the side locus
for the current row and issue a prefetch for it; in all cases set
`prepped_`.  The `assert(!prepped_)` / `assert(!sideloc_.valid())`
checks become error outcomes. -/
def prep (s : RowChaserState) : Except String RowChaserState :=
  if s.done = false then
    if s.prepped then Except.error "prep: assert failed: !prepped_"
    else if s.sideloc.isSome then Except.error "prep: assert failed: !sideloc_.valid()"
    else Except.ok { s with sideloc := some s.row,
                            trace := s.trace ++ [PEvent.issue s.row],
                            prepped := true }
  else Except.ok { s with prepped := true }

/-- `RowChaser::setRow(uint32_t row, uint32_t qlen)`.  The ghost trace
is cleared: a new chase begins. -/
def setRow (idx : EbwtIndex) (s : RowChaserState) (row qlen : Nat) :
    Except String RowChaserState :=
  if row = unset then Except.error "setRow: assert failed: 0xffffffff != row"
  else if qlen = 0 then Except.error "setRow: assert failed: qlen > 0"
  else
    -- `row_ = row; qlen_ = qlen; ASSERT_ONLY(sideloc_.invalidate());`
    let s0 := { s with row := row, qlen := qlen, sideloc := none, trace := [] }
    if row = idx.zOff then
      -- arrived at the extreme left-hand end of the reference
      Except.ok { s0 with off := 0, done := true }
    else if row &&& idx.offMask = row then
      -- arrived at a marked row
      Except.ok { s0 with off := idx.offs.getD (row >>> idx.offRate) 0, done := true }
    else
      prep { s0 with done := false, jumps := 0, off := unset, prepped := false }

/-- `RowChaser::advance()`: consume the pending backward step, bump the
step count, move to the new row, resolve if an anchor was reached, and
otherwise re-prep (issue the next prefetch). -/
def advance (idx : EbwtIndex) (s : RowChaserState) : Except String RowChaserState :=
  if s.done then Except.error "advance: assert failed: !done_"
  else if s.prepped = false then Except.error "advance: assert failed: prepped_"
  else
    let lr := s.sideloc.getD s.row
    let newrow := idx.mapLF lr
    if newrow = s.row then Except.error "advance: assert failed: newrow != row_"
    else
      let s1 := { s with prepped := false, sideloc := none,
                         jumps := s.jumps + 1, row := newrow,
                         trace := s.trace ++ [PEvent.consume lr] }
      let s2 :=
        if newrow = idx.zOff then { s1 with off := s1.jumps, done := true }
        else if newrow &&& idx.offMask = newrow then
          { s1 with off := idx.offs.getD (newrow >>> idx.offRate) 0 + s1.jumps,
                    done := true }
        else s1
      prep s2

/-- `RowChaser::done()`. -/
def isDone (s : RowChaserState) : Bool := s.done

/-- `RowChaser::flatOff()`. -/
def flatOff (s : RowChaserState) : Nat := s.off

/-- `RowChaser::off()`: translate the resolved flat offset to a
`(tidx, textoff)` pair via `joinedToTextOff` (which also yields the hit
text length `tlen_`).  `tidx` may be `0xffffffff` when the alignment
overlaps a reference boundary; it is returned unchanged. -/
def off (idx : EbwtIndex) (s : RowChaserState) : Except String (Nat × Nat) :=
  if flatOff s = unset then Except.error "off: assert failed: 0xffffffff != off"
  else
    let r := idx.joinedToTextOff s.qlen (flatOff s)
    Except.ok (r.1, r.2.1)

/-- The `while(!rc.done()) rc.advance();` loop of the static wrappers,
made total with a fuel parameter. -/
def chaseLoop (idx : EbwtIndex) : Nat → RowChaserState → Except String RowChaserState
  | 0, _ => Except.error "chaseLoop: out of fuel"
  | fuel + 1, s =>
    if s.done then Except.ok s
    else match advance idx s with
      | Except.error e => Except.error e
      | Except.ok s' => chaseLoop idx fuel s'

/-- `RowChaser::toFlatRefOff(ebwt, qlen, row)`. -/
def toFlatRefOff (idx : EbwtIndex) (fuel qlen row : Nat) : Except String Nat :=
  match setRow idx init row qlen with
  | Except.error e => Except.error e
  | Except.ok s1 =>
    match chaseLoop idx fuel s1 with
    | Except.error e => Except.error e
    | Except.ok s2 => Except.ok (flatOff s2)

/-- `RowChaser::toRefOff(ebwt, qlen, row)`. -/
def toRefOff (idx : EbwtIndex) (fuel qlen row : Nat) : Except String (Nat × Nat) :=
  match setRow idx init row qlen with
  | Except.error e => Except.error e
  | Except.ok s1 =>
    match chaseLoop idx fuel s1 with
    | Except.error e => Except.error e
    | Except.ok s2 => off idx s2

end RowChaser

/-- The test index of the worked example in the spec (§8): `sampleShift = 2`
(interval 4), sentinel row 0 with offset 0, backward-step chain
`7 → 5 → 2`, row 2 marked with `samples[2 >> 2] = offs[0] = 10`, rows 7
and 5 unmarked (the mask `0b110` keeps row 2 fixed but not 5 or 7). -/
def testIdx : EbwtIndex :=
  { offMask := 6, offRate := 2, zOff := 0, offs := [10],
    mapLF := fun r => if r = 7 then 5 else if r = 5 then 2 else 0,
    joinedToTextOff := fun _ off => (0, off, 100) }

/-- `true` iff the modelled computation stopped at a failed assertion. -/
def isAssertFailure {α : Type} (x : Except String α) : Bool :=
  match x with
  | Except.error _ => true
  | Except.ok _ => false

/-- The driving loop exactly as the spec words it for the convenience
wrappers: repeatedly call `step` (`advance`) while `isResolved`
(`done`) is false, under the same fuel discipline as `chaseLoop`. -/
def specDrive (idx : EbwtIndex) : Nat → RowChaserState → Except String RowChaserState
  | 0, _ => Except.error "chaseLoop: out of fuel"
  | fuel + 1, s =>
    if RowChaser.isDone s then Except.ok s
    else match RowChaser.advance idx s with
      | Except.error e => Except.error e
      | Except.ok s2 => specDrive idx fuel s2

/-- Following the words of the spec for `resolveRowToFlatOffset`:
construct a fresh resolver, reset it, drive it to completion, read the
resolved flat offset. -/
def specResolveFlat (idx : EbwtIndex) (fuel qlen row : Nat) : Except String Nat :=
  match RowChaser.setRow idx RowChaser.init row qlen with
  | Except.error e => Except.error e
  | Except.ok s1 =>
    match specDrive idx fuel s1 with
    | Except.error e => Except.error e
    | Except.ok s2 => Except.ok (RowChaser.flatOff s2)

/-- Following the words of the spec for `resolveRowToTextPosition`:
construct a fresh resolver, reset it, drive it to completion, read the
resolved text position. -/
def specResolvePos (idx : EbwtIndex) (fuel qlen row : Nat) : Except String (Nat × Nat) :=
  match RowChaser.setRow idx RowChaser.init row qlen with
  | Except.error e => Except.error e
  | Except.ok s1 =>
    match specDrive idx fuel s1 with
    | Except.error e => Except.error e
    | Except.ok s2 => RowChaser.off idx s2

/-- An index with a backward-step cycle between the unmarked rows 5 and
6 (sentinel row 1, only row 0 marked): a corrupted index, on which a
chase started at row 5 never reaches an anchor. -/
def cycIdx : EbwtIndex :=
  { offMask := 0, offRate := 2, zOff := 1, offs := [],
    mapLF := fun r => if r = 5 then 6 else if r = 6 then 5 else 0,
    joinedToTextOff := fun _ _ => (0, 0, 0) }

/-- Iterated `advance`, stopping at the first failed assertion. -/
def advanceN (idx : EbwtIndex) : Nat → RowChaserState → Except String RowChaserState
  | 0, s => Except.ok s
  | n + 1, s =>
    match RowChaser.advance idx s with
    | Except.error e => Except.error e
    | Except.ok s2 => advanceN idx n s2

/-- `setRow 5` followed by ten `advance` calls on the cyclic index. -/
def cycRun : Except String RowChaserState :=
  match RowChaser.setRow cycIdx RowChaser.init 5 1 with
  | Except.error e => Except.error e
  | Except.ok s1 => advanceN cycIdx 10 s1

/-- The state `cycRun` ends in. -/
def cycState : RowChaserState :=
  match cycRun with
  | Except.error _ => RowChaser.init
  | Except.ok s => s

/-- An index whose flat-offset translation reports the "no sequence"
sentinel: every resolved span straddles a joined-sequence boundary. -/
def noSeqIdx : EbwtIndex :=
  { testIdx with joinedToTextOff := fun _ _ => (unset, 3, 9) }

/-- States reachable by starting a chase with `setRow` on a fresh
resolver and making any number of successful `advance` calls. -/
inductive Reaches (idx : EbwtIndex) : RowChaserState → Prop where
  | start (row qlen : Nat) (s : RowChaserState)
      (h : RowChaser.setRow idx RowChaser.init row qlen = Except.ok s) :
      Reaches idx s
  | step (s s' : RowChaserState) (h : Reaches idx s)
      (h' : RowChaser.advance idx s = Except.ok s') : Reaches idx s'

/-- The awaiting state after `setRow 7 1` on the test index. -/
def awaitState : RowChaserState :=
  match RowChaser.setRow testIdx RowChaser.init 7 1 with
  | Except.error _ => RowChaser.init
  | Except.ok s => s

/-- A trace made solely of matched issue/consume pairs: each consume
immediately follows the issue for the same locus, and a new issue
happens only after the previous prefetch was consumed. -/
def closedTrace : List PEvent → Bool
  | [] => true
  | PEvent.issue l :: PEvent.consume m :: rest => l == m && closedTrace rest
  | _ => false

/-- A legal protocol trace: matched issue/consume pairs, optionally
ending in a single pending (issued and not yet consumed) prefetch. -/
def okTrace : List PEvent → Bool
  | [] => true
  | [PEvent.issue _] => true
  | PEvent.issue l :: PEvent.consume m :: rest => l == m && okTrace rest
  | _ => false

/-- The `j`-fold iterate of the backward-step mapping. -/
def stepN (idx : EbwtIndex) (r : Nat) : Nat → Nat
  | 0 => r
  | j + 1 => idx.mapLF (stepN idx r j)

/-- A row whose offset the index knows directly: the sentinel row or a
marked row. -/
def isAnchor (idx : EbwtIndex) (r : Nat) : Prop :=
  r = idx.zOff ∨ r &&& idx.offMask = r

instance (idx : EbwtIndex) (r : Nat) : Decidable (isAnchor idx r) := by
  unfold isAnchor; infer_instance

/-- The known offset of an anchor row, exactly as the code reads it:
0 for the sentinel row, the stored sample for any other marked row. -/
def anchorOff (idx : EbwtIndex) (r : Nat) : Nat :=
  if r = idx.zOff then 0 else idx.offs.getD (r >>> idx.offRate) 0

/-! ## Helper lemmas -/

/-- Characterization of a successful `advance` from a state whose side
locus was built from the current row (the only reachable shape). -/
theorem advance_ok_fields (idx : EbwtIndex) (s s' : RowChaserState)
    (h : RowChaser.advance idx s = Except.ok s') :
    s.done = false ∧ s.prepped = true ∧ s'.prepped = true ∧
    s'.jumps = s.jumps + 1 ∧ s'.row = idx.mapLF (s.sideloc.getD s.row) ∧
    s'.qlen = s.qlen ∧
    ((s'.done = true ∧
      s'.trace = s.trace ++ [PEvent.consume (s.sideloc.getD s.row)]) ∨
     (s'.done = false ∧ s'.off = s.off ∧ s'.sideloc = some s'.row ∧
      s'.trace = s.trace ++ [PEvent.consume (s.sideloc.getD s.row),
                             PEvent.issue s'.row])) := by
  by_cases hd : s.done = true
  · simp [RowChaser.advance, hd] at h
  · rw [Bool.not_eq_true] at hd
    by_cases hp : s.prepped = true
    · by_cases hne : idx.mapLF (s.sideloc.getD s.row) = s.row
      · simp [RowChaser.advance, hd, hp, hne] at h
      · by_cases hz : idx.mapLF (s.sideloc.getD s.row) = idx.zOff
        · simp [RowChaser.advance, RowChaser.prep, hd, hp, hne, hz,
                show ¬(idx.zOff = s.row) from fun hh => hne (hz.trans hh)] at h
          subst h
          simp [hd, hp, hz]
        · by_cases hm : idx.mapLF (s.sideloc.getD s.row) &&& idx.offMask
              = idx.mapLF (s.sideloc.getD s.row)
          · simp [RowChaser.advance, RowChaser.prep, hd, hp, hne, hz, hm] at h
            subst h
            simp [hd, hp]
          · simp [RowChaser.advance, RowChaser.prep, hd, hp, hne, hz, hm] at h
            subst h
            simp [hd, hp]
    · rw [Bool.not_eq_true] at hp
      simp [RowChaser.advance, hd, hp] at h

/-- Characterization of a successful `setRow`. -/
theorem setRow_ok_fields (idx : EbwtIndex) (s s' : RowChaserState) (row qlen : Nat)
    (h : RowChaser.setRow idx s row qlen = Except.ok s') :
    s'.row = row ∧ s'.qlen = qlen ∧
    ((s'.done = true ∧ s'.trace = []) ∨
     (s'.done = false ∧ s'.off = unset ∧ s'.jumps = 0 ∧ s'.prepped = true ∧
      s'.sideloc = some row ∧ s'.trace = [PEvent.issue row])) := by
  by_cases hr : row = unset
  · simp [RowChaser.setRow, hr] at h
  · by_cases hq : qlen = 0
    · simp [RowChaser.setRow, hr, hq] at h
    · by_cases hz : row = idx.zOff
      · subst hz
        simp [RowChaser.setRow, hr, hq] at h
        subst h; simp
      · by_cases hm : row &&& idx.offMask = row
        · simp [RowChaser.setRow, hr, hq, hz, hm] at h
          subst h; simp
        · simp [RowChaser.setRow, RowChaser.prep, hr, hq, hz, hm] at h
          subst h; simp

theorem specDrive_eq_chaseLoop (idx : EbwtIndex) :
    ∀ (fuel : Nat) (s : RowChaserState),
      specDrive idx fuel s = RowChaser.chaseLoop idx fuel s
  | 0, _ => rfl
  | fuel + 1, s => by
    unfold specDrive RowChaser.chaseLoop RowChaser.isDone
    by_cases hd : s.done = true
    · simp [hd]
    · rw [Bool.not_eq_true] at hd
      simp only [hd, Bool.false_eq_true, if_false]
      cases RowChaser.advance idx s with
      | error e => rfl
      | ok s2 => exact specDrive_eq_chaseLoop idx fuel s2

theorem okTrace_of_closed : ∀ t, closedTrace t = true → okTrace t = true
  | [], _ => rfl
  | PEvent.issue _ :: PEvent.consume _ :: rest, h => by
    simp [closedTrace] at h
    simp [okTrace, h.1, okTrace_of_closed rest h.2]
  | [PEvent.issue _], h => by simp [closedTrace] at h
  | PEvent.issue _ :: PEvent.issue _ :: _, h => by simp [closedTrace] at h
  | PEvent.consume _ :: _, h => by simp [closedTrace] at h

theorem okTrace_pending :
    ∀ (t : List PEvent) (l : Nat), closedTrace t = true →
      okTrace (t ++ [PEvent.issue l]) = true
  | [], _, _ => rfl
  | PEvent.issue _ :: PEvent.consume _ :: rest, l, h => by
    simp [closedTrace] at h
    simp [okTrace, h.1]
    exact okTrace_pending rest l h.2
  | [PEvent.issue _], _, h => by simp [closedTrace] at h
  | PEvent.issue _ :: PEvent.issue _ :: _, _, h => by simp [closedTrace] at h
  | PEvent.consume _ :: _, _, h => by simp [closedTrace] at h

theorem closedTrace_append_pair :
    ∀ (t : List PEvent) (l : Nat), closedTrace t = true →
      closedTrace (t ++ [PEvent.issue l, PEvent.consume l]) = true
  | [], l, _ => by simp [closedTrace]
  | PEvent.issue _ :: PEvent.consume _ :: rest, l, h => by
    simp [closedTrace] at h
    simp [closedTrace, h.1]
    exact closedTrace_append_pair rest l h.2
  | [PEvent.issue _], _, h => by simp [closedTrace] at h
  | PEvent.issue _ :: PEvent.issue _ :: _, _, h => by simp [closedTrace] at h
  | PEvent.consume _ :: _, _, h => by simp [closedTrace] at h

/-- Protocol invariant of reachable states: a resolved chase has a
fully matched trace; an unresolved chase has one pending prefetch for
exactly the current row on top of a fully matched prefix, and its side
locus was built from the current row. -/
theorem reaches_protocol_invariant (idx : EbwtIndex) (s : RowChaserState)
    (h : Reaches idx s) :
    (s.done = true → closedTrace s.trace = true) ∧
    (s.done = false → s.sideloc = some s.row ∧
      ∃ t, s.trace = t ++ [PEvent.issue s.row] ∧ closedTrace t = true) := by
  induction h with
  | start row qlen s h =>
    rcases setRow_ok_fields idx RowChaser.init s row qlen h with ⟨hrow, _, hcase⟩
    rcases hcase with ⟨hdone, htr⟩ | ⟨hdone, _, _, _, hloc, htr⟩
    · exact ⟨fun _ => by rw [htr]; rfl, fun hd => by rw [hdone] at hd; cases hd⟩
    · constructor
      · intro hd; rw [hdone] at hd; cases hd
      · intro _
        refine ⟨by rw [hloc, hrow], [], ?_, rfl⟩
        rw [htr, hrow]; rfl
  | step s s' hre h' ih =>
    rcases advance_ok_fields idx s s' h' with ⟨hd0, _, _, _, _, _, hcase⟩
    rcases ih with ⟨_, hunres⟩
    rcases hunres hd0 with ⟨hloc, t, htr, hct⟩
    have hgd : s.sideloc.getD s.row = s.row := by rw [hloc]; rfl
    rcases hcase with ⟨hdone', htr'⟩ | ⟨hdone', _, hloc', htr'⟩
    · refine ⟨fun _ => ?_, fun hd => by rw [hdone'] at hd; cases hd⟩
      rw [htr', hgd, htr, List.append_assoc]
      exact closedTrace_append_pair t s.row hct
    · constructor
      · intro hd; rw [hdone'] at hd; cases hd
      · intro _
        refine ⟨hloc', t ++ [PEvent.issue s.row, PEvent.consume s.row], ?_,
                closedTrace_append_pair t s.row hct⟩
        rw [htr', hgd, htr]
        simp

theorem stepN_shift (idx : EbwtIndex) (r : Nat) :
    ∀ j, stepN idx (idx.mapLF r) j = stepN idx r (j + 1)
  | 0 => rfl
  | j + 1 => by
    show idx.mapLF (stepN idx (idx.mapLF r) j) = idx.mapLF (stepN idx r (j + 1))
    rw [stepN_shift idx r j]

/-- Forward evaluation of `setRow` in the unresolved case. -/
theorem setRow_eq_awaiting (idx : EbwtIndex) (s : RowChaserState) (row qlen : Nat)
    (hrow : row ≠ unset) (hq : ¬ qlen = 0)
    (hz : row ≠ idx.zOff) (hm : row &&& idx.offMask ≠ row) :
    RowChaser.setRow idx s row qlen =
      Except.ok { s with row := row, qlen := qlen, off := unset, done := false, jumps := 0, sideloc := some row, prepped := true, trace := [PEvent.issue row] } := by
  simp [RowChaser.setRow, RowChaser.prep, hrow, hq, hz, hm]

/-- Forward evaluation of `advance` when the new row is not an anchor. -/
theorem advance_eq_continue (idx : EbwtIndex) (s : RowChaserState)
    (hdone : s.done = false) (hprep : s.prepped = true)
    (hloc : s.sideloc = some s.row)
    (hne : idx.mapLF s.row ≠ s.row)
    (hna : ¬ isAnchor idx (idx.mapLF s.row)) :
    RowChaser.advance idx s =
      Except.ok { s with prepped := true, jumps := s.jumps + 1, row := idx.mapLF s.row, sideloc := some (idx.mapLF s.row), trace := s.trace ++ [PEvent.consume s.row, PEvent.issue (idx.mapLF s.row)], done := false } := by
  rw [isAnchor, not_or] at hna
  simp [RowChaser.advance, RowChaser.prep, hdone, hprep, hloc, hne,
        hna.1, hna.2]

/-- Forward evaluation of `advance` when the new row is an anchor: the
chase resolves with the known offset of the anchor plus the step
count. -/
theorem advance_eq_anchor (idx : EbwtIndex) (s : RowChaserState)
    (hdone : s.done = false) (hprep : s.prepped = true)
    (hloc : s.sideloc = some s.row)
    (hne : idx.mapLF s.row ≠ s.row)
    (ha : isAnchor idx (idx.mapLF s.row)) :
    ∃ s', RowChaser.advance idx s = Except.ok s' ∧
      s'.done = true ∧ s'.jumps = s.jumps + 1 ∧
      s'.off = anchorOff idx (idx.mapLF s.row) + (s.jumps + 1) := by
  by_cases hz : idx.mapLF s.row = idx.zOff
  · refine ⟨{ s with prepped := true, sideloc := none, jumps := s.jumps + 1, row := idx.mapLF s.row, trace := s.trace ++ [PEvent.consume s.row], off := s.jumps + 1, done := true },
            ?_, rfl, rfl, ?_⟩
    · simp [RowChaser.advance, RowChaser.prep, hdone, hprep, hloc, hne, hz,
            show ¬(idx.zOff = s.row) from fun hh => hne (hz.trans hh)]
    · show s.jumps + 1 = anchorOff idx (idx.mapLF s.row) + (s.jumps + 1)
      rw [anchorOff, if_pos hz, Nat.zero_add]
  · have hm : idx.mapLF s.row &&& idx.offMask = idx.mapLF s.row := by
      rcases ha with ha | ha
      · exact absurd ha hz
      · exact ha
    refine ⟨{ s with prepped := true, sideloc := none, jumps := s.jumps + 1, row := idx.mapLF s.row, trace := s.trace ++ [PEvent.consume s.row], off := idx.offs.getD (idx.mapLF s.row >>> idx.offRate) 0 + (s.jumps + 1), done := true },
            ?_, rfl, rfl, ?_⟩
    · simp [RowChaser.advance, RowChaser.prep, hdone, hprep, hloc, hne, hz, hm]
    · show idx.offs.getD (idx.mapLF s.row >>> idx.offRate) 0 + (s.jumps + 1)
        = anchorOff idx (idx.mapLF s.row) + (s.jumps + 1)
      rw [anchorOff, if_neg hz]

/-- One unfolding of the chase loop. -/
theorem chaseLoop_succ (idx : EbwtIndex) (fuel : Nat) (s : RowChaserState) :
    RowChaser.chaseLoop idx (fuel + 1) s =
      if s.done then Except.ok s
      else match RowChaser.advance idx s with
        | Except.error e => Except.error e
        | Except.ok s2 => RowChaser.chaseLoop idx fuel s2 := rfl

/-- The chase loop resolves once the backward chain first reaches an
anchor, accumulating one step per `advance`. -/
theorem chaseLoop_resolves (idx : EbwtIndex) :
    ∀ (d : Nat) (s : RowChaserState) (fuel : Nat),
      s.done = false → s.prepped = true → s.sideloc = some s.row →
      (∀ j, j < d + 1 → ¬ isAnchor idx (stepN idx s.row j)) →
      (∀ j, j < d + 1 → idx.mapLF (stepN idx s.row j) ≠ stepN idx s.row j) →
      isAnchor idx (stepN idx s.row (d + 1)) →
      d + 2 ≤ fuel →
      ∃ s', RowChaser.chaseLoop idx fuel s = Except.ok s' ∧
        s'.done = true ∧ s'.jumps = s.jumps + (d + 1) ∧
        s'.off = anchorOff idx (stepN idx s.row (d + 1)) + (s.jumps + (d + 1)) := by
  intro d
  induction d with
  | zero =>
    intro s fuel hdone hprep hloc hchain hstep hanchor hfuel
    obtain ⟨f, rfl⟩ : ∃ f, fuel = f + 1 + 1 := ⟨fuel - 2, by omega⟩
    have hne : idx.mapLF s.row ≠ s.row := hstep 0 (by omega)
    have ha : isAnchor idx (idx.mapLF s.row) := hanchor
    rcases advance_eq_anchor idx s hdone hprep hloc hne ha with
      ⟨s', hadv, hdone', hjumps', hoff'⟩
    refine ⟨s', ?_, hdone', hjumps', hoff'⟩
    rw [chaseLoop_succ, if_neg (by rw [hdone]; exact Bool.false_ne_true), hadv]
    show RowChaser.chaseLoop idx (f + 1) s' = Except.ok s'
    rw [chaseLoop_succ, if_pos hdone']
  | succ d ih =>
    intro s fuel hdone hprep hloc hchain hstep hanchor hfuel
    obtain ⟨f, rfl⟩ : ∃ f, fuel = f + 1 := ⟨fuel - 1, by omega⟩
    have hne : idx.mapLF s.row ≠ s.row := hstep 0 (by omega)
    have hna : ¬ isAnchor idx (idx.mapLF s.row) := hchain 1 (by omega)
    have hadv := advance_eq_continue idx s hdone hprep hloc hne hna
    set s1 : RowChaserState :=
      { s with prepped := true, jumps := s.jumps + 1, row := idx.mapLF s.row, sideloc := some (idx.mapLF s.row), trace := s.trace ++ [PEvent.consume s.row, PEvent.issue (idx.mapLF s.row)], done := false } with hs1
    have hrow1 : s1.row = idx.mapLF s.row := rfl
    have hsh : ∀ j, stepN idx s1.row j = stepN idx s.row (j + 1) := by
      intro j; rw [hrow1, stepN_shift]
    rcases ih s1 f rfl rfl rfl
        (fun j hj => by rw [hsh]; exact hchain (j + 1) (by omega))
        (fun j hj => by rw [hsh]; exact hstep (j + 1) (by omega))
        (by rw [hsh]; exact hanchor)
        (by omega) with ⟨s', hloop, hdone', hjumps', hoff'⟩
    refine ⟨s', ?_, hdone', ?_, ?_⟩
    · rw [chaseLoop_succ, if_neg (by rw [hdone]; exact Bool.false_ne_true), hadv]
      exact hloop
    · rw [hjumps']; show s.jumps + 1 + (d + 1) = s.jumps + (d + 1 + 1); omega
    · rw [hoff', hsh]
      show anchorOff idx (stepN idx s.row (d + 1 + 1)) + (s.jumps + 1 + (d + 1))
        = anchorOff idx (stepN idx s.row (d + 1 + 1)) + (s.jumps + (d + 1 + 1))
      omega

/-! ## Claims -/

/-- Claim C1: for a valid `row` (not the reserved value `0xffffffff`)
and `qlen > 0`, `setRow` resolves immediately with flat offset 0 when
`row` equals the sentinel row `zOff`; resolves immediately with
`offs[row >> offRate]` when `row` is marked (masking with `offMask`
reproduces it); and otherwise leaves the chase unresolved with
`jumps = 0` and a single prefetch issued for the locus of `row`. -/
theorem setRow_spec (idx : EbwtIndex) (s : RowChaserState) (row qlen : Nat)
    (hrow : row ≠ unset) (hq : 0 < qlen) :
    ∃ s', RowChaser.setRow idx s row qlen = Except.ok s' ∧
      (row = idx.zOff → s'.done = true ∧ s'.off = 0) ∧
      (row ≠ idx.zOff → row &&& idx.offMask = row →
        s'.done = true ∧ s'.off = idx.offs.getD (row >>> idx.offRate) 0) ∧
      (row ≠ idx.zOff → row &&& idx.offMask ≠ row →
        s'.done = false ∧ s'.jumps = 0 ∧ s'.off = unset ∧ s'.prepped = true ∧
        s'.sideloc = some row ∧ s'.trace = [PEvent.issue row]) := by
  have hq' : ¬ qlen = 0 := Nat.pos_iff_ne_zero.mp hq
  by_cases hz : row = idx.zOff
  · refine ⟨{ s with row := row, qlen := qlen, sideloc := none, trace := [], off := 0, done := true },
            ?_, fun _ => ⟨rfl, rfl⟩,
            fun hc _ => absurd hz hc, fun hc _ => absurd hz hc⟩
    simp [RowChaser.setRow, hrow, hq', hz, show ¬(idx.zOff = unset) from hz ▸ hrow]
  · by_cases hm : row &&& idx.offMask = row
    · refine ⟨{ s with row := row, qlen := qlen, sideloc := none, trace := [], off := idx.offs.getD (row >>> idx.offRate) 0, done := true },
              ?_,
              fun hc => absurd hc hz, fun _ _ => ⟨rfl, rfl⟩,
              fun _ hc => absurd hm hc⟩
      simp [RowChaser.setRow, hrow, hq', hz, hm]
    · refine ⟨{ s with row := row, qlen := qlen, off := unset, done := false, jumps := 0, sideloc := some row, prepped := true, trace := [PEvent.issue row] },
              ?_,
              fun hc => absurd hc hz, fun _ hc => absurd hc hm,
              fun _ _ => ⟨rfl, rfl, rfl, rfl, rfl, rfl⟩⟩
      simp [RowChaser.setRow, RowChaser.prep, hrow, hq', hz, hm]

/-- Claim C1 witness: the test index at row 7, query length 1 (row 7 is
neither the sentinel nor marked, so the chase is left awaiting with a
prefetch issued). -/
theorem setRow_spec_witness :
    ∃ s', RowChaser.setRow testIdx RowChaser.init 7 1 = Except.ok s' ∧
      (7 = testIdx.zOff → s'.done = true ∧ s'.off = 0) ∧
      (7 ≠ testIdx.zOff → 7 &&& testIdx.offMask = 7 →
        s'.done = true ∧ s'.off = testIdx.offs.getD (7 >>> testIdx.offRate) 0) ∧
      (7 ≠ testIdx.zOff → 7 &&& testIdx.offMask ≠ 7 →
        s'.done = false ∧ s'.jumps = 0 ∧ s'.off = unset ∧ s'.prepped = true ∧
        s'.sideloc = some 7 ∧ s'.trace = [PEvent.issue 7]) :=
  setRow_spec testIdx RowChaser.init 7 1 (by decide) (by decide)

/-- Claim C2: a single successful `advance` from an awaiting state whose
prefetch was issued for the current row increments `jumps`, moves to the
backward-step result `mapLF row`, and resolves with `off = jumps` at the
sentinel, resolves with `off = offs[newrow >> offRate] + jumps` at a
marked row, and otherwise stays unresolved having consumed the pending
prefetch and issued one for the new locus. -/
theorem advance_step_spec (idx : EbwtIndex) (s : RowChaserState)
    (hdone : s.done = false) (hprep : s.prepped = true)
    (hloc : s.sideloc = some s.row)
    (hne : idx.mapLF s.row ≠ s.row) :
    ∃ s', RowChaser.advance idx s = Except.ok s' ∧
      s'.jumps = s.jumps + 1 ∧ s'.row = idx.mapLF s.row ∧
      (idx.mapLF s.row = idx.zOff → s'.done = true ∧ s'.off = s.jumps + 1) ∧
      (idx.mapLF s.row ≠ idx.zOff →
        idx.mapLF s.row &&& idx.offMask = idx.mapLF s.row →
        s'.done = true ∧
        s'.off = idx.offs.getD (idx.mapLF s.row >>> idx.offRate) 0 + (s.jumps + 1)) ∧
      (idx.mapLF s.row ≠ idx.zOff →
        idx.mapLF s.row &&& idx.offMask ≠ idx.mapLF s.row →
        s'.done = false ∧ s'.prepped = true ∧ s'.sideloc = some (idx.mapLF s.row) ∧
        s'.trace = s.trace ++ [PEvent.consume s.row, PEvent.issue (idx.mapLF s.row)]) := by
  by_cases hz : idx.mapLF s.row = idx.zOff
  · refine ⟨{ s with prepped := true, sideloc := none, jumps := s.jumps + 1, row := idx.mapLF s.row, trace := s.trace ++ [PEvent.consume s.row], off := s.jumps + 1, done := true },
            ?_, rfl, rfl,
            fun _ => ⟨rfl, rfl⟩, fun hc _ => absurd hz hc, fun hc _ => absurd hz hc⟩
    simp [RowChaser.advance, RowChaser.prep, hdone, hprep, hloc, hne, hz,
          show ¬(idx.zOff = s.row) from fun hh => hne (hz.trans hh)]
  · by_cases hm : idx.mapLF s.row &&& idx.offMask = idx.mapLF s.row
    · refine ⟨{ s with prepped := true, sideloc := none, jumps := s.jumps + 1, row := idx.mapLF s.row, trace := s.trace ++ [PEvent.consume s.row], off := idx.offs.getD (idx.mapLF s.row >>> idx.offRate) 0 + (s.jumps + 1), done := true },
              ?_, rfl, rfl,
              fun hc => absurd hc hz, fun _ _ => ⟨rfl, rfl⟩,
              fun _ hc => absurd hm hc⟩
      simp [RowChaser.advance, RowChaser.prep, hdone, hprep, hloc, hne, hz, hm]
    · refine ⟨{ s with prepped := true, jumps := s.jumps + 1, row := idx.mapLF s.row, sideloc := some (idx.mapLF s.row), trace := s.trace ++ [PEvent.consume s.row, PEvent.issue (idx.mapLF s.row)], done := false },
              ?_, rfl, rfl,
              fun hc => absurd hc hz, fun _ hc => absurd hc hm,
              fun _ _ => ⟨rfl, rfl, rfl, rfl⟩⟩
      simp [RowChaser.advance, RowChaser.prep, hdone, hprep, hloc, hne, hz, hm]

/-- Claim C2 witness: the awaiting state produced by `setRow` on the
test index at row 7 (the backward step 7 → 5 is neither the sentinel
nor marked, so the chase stays awaiting). -/
theorem advance_step_spec_witness :
    ∃ s', RowChaser.advance testIdx
        { prepped := true, qlen := 1, row := 7, jumps := 0, sideloc := some 7,
          done := false, off := unset, tlen := 0, trace := [PEvent.issue 7] }
        = Except.ok s' ∧
      s'.jumps = 0 + 1 ∧ s'.row = testIdx.mapLF 7 ∧
      (testIdx.mapLF 7 = testIdx.zOff → s'.done = true ∧ s'.off = 0 + 1) ∧
      (testIdx.mapLF 7 ≠ testIdx.zOff →
        testIdx.mapLF 7 &&& testIdx.offMask = testIdx.mapLF 7 →
        s'.done = true ∧
        s'.off = testIdx.offs.getD (testIdx.mapLF 7 >>> testIdx.offRate) 0 + (0 + 1)) ∧
      (testIdx.mapLF 7 ≠ testIdx.zOff →
        testIdx.mapLF 7 &&& testIdx.offMask ≠ testIdx.mapLF 7 →
        s'.done = false ∧ s'.prepped = true ∧ s'.sideloc = some (testIdx.mapLF 7) ∧
        s'.trace = [PEvent.issue 7] ++
          [PEvent.consume 7, PEvent.issue (testIdx.mapLF 7)]) :=
  advance_step_spec testIdx
    { prepped := true, qlen := 1, row := 7, jumps := 0, sideloc := some 7,
      done := false, off := unset, tlen := 0, trace := [PEvent.issue 7] }
    rfl rfl rfl (by decide)

/-- Claim C3: for an unmarked, non-sentinel starting row whose backward
chain first reaches an anchor after `k` steps with
`1 ≤ k ≤ 2 ^ offRate` (the sampling interval — the reachability
invariant of the index), the chase started by `setRow` resolves after
exactly `k` `advance` calls — at least 1 and at most the sampling
interval — and the resolved flat offset equals the known offset of the
anchor plus the number of steps taken. -/
theorem chase_terminates_bounded (idx : EbwtIndex) (row qlen k : Nat)
    (hrow : row ≠ unset) (hq : 0 < qlen)
    (hk1 : 1 ≤ k) (hk2 : k ≤ 2 ^ idx.offRate)
    (hchain : ∀ j, j < k → ¬ isAnchor idx (stepN idx row j))
    (hstep : ∀ j, j < k → idx.mapLF (stepN idx row j) ≠ stepN idx row j)
    (hanchor : isAnchor idx (stepN idx row k)) :
    ∃ s1 s', RowChaser.setRow idx RowChaser.init row qlen = Except.ok s1 ∧
      RowChaser.chaseLoop idx (k + 1) s1 = Except.ok s' ∧
      s'.done = true ∧ s'.jumps = k ∧ 1 ≤ s'.jumps ∧
      s'.jumps ≤ 2 ^ idx.offRate ∧
      s'.off = anchorOff idx (stepN idx row k) + k := by
  have hq' : ¬ qlen = 0 := Nat.pos_iff_ne_zero.mp hq
  have hna0 : ¬ isAnchor idx row := hchain 0 hk1
  rw [isAnchor, not_or] at hna0
  have hset := setRow_eq_awaiting idx RowChaser.init row qlen hrow hq' hna0.1 hna0.2
  set s1 : RowChaserState :=
    { RowChaser.init with row := row, qlen := qlen, off := unset, done := false, jumps := 0, sideloc := some row, prepped := true, trace := [PEvent.issue row] } with hs1
  obtain ⟨d, rfl⟩ : ∃ d, k = d + 1 := ⟨k - 1, by omega⟩
  have hj0 : s1.jumps = 0 := rfl
  have hr1 : s1.row = row := rfl
  rcases chaseLoop_resolves idx d s1 (d + 1 + 1) rfl rfl rfl
      (fun j hj => by rw [hr1]; exact hchain j hj)
      (fun j hj => by rw [hr1]; exact hstep j hj)
      (by rw [hr1]; exact hanchor) (by omega) with
    ⟨s', hloop, hdone', hjumps', hoff'⟩
  refine ⟨s1, s', hset, hloop, hdone', ?_, ?_, ?_, ?_⟩
  · rw [hjumps', hj0]; omega
  · rw [hjumps', hj0]; omega
  · rw [hjumps', hj0]; omega
  · rw [hoff', hj0, hr1]; omega

/-- Claim C3 witness: on the test index, the chase of row 7 reaches the
marked anchor row 2 after exactly 2 steps (within the interval 4) and
resolves to the anchor offset 10 plus the 2 steps. -/
theorem chase_terminates_bounded_witness :
    ∃ s1 s', RowChaser.setRow testIdx RowChaser.init 7 1 = Except.ok s1 ∧
      RowChaser.chaseLoop testIdx (2 + 1) s1 = Except.ok s' ∧
      s'.done = true ∧ s'.jumps = 2 ∧ 1 ≤ s'.jumps ∧
      s'.jumps ≤ 2 ^ testIdx.offRate ∧
      s'.off = anchorOff testIdx (stepN testIdx 7 2) + 2 :=
  chase_terminates_bounded testIdx 7 1 2 (by decide) (by decide) (by decide)
    (by decide) (by decide) (by decide) (by decide)

/-- Claim C4: on the test index of the worked example (`sampleShift = 2`,
sentinel row 0 with offset 0, chain 7 → 5 → 2 with row 2 marked and
`offs[2 >> 2] = 10`), resolving row 7 yields flat offset 12. -/
theorem example_chase_resolves_12 :
    RowChaser.toFlatRefOff testIdx 3 1 7 = Except.ok 12 := by rfl

/-- Claim C5: throughout every chase the resolver has at most one
outstanding prefetch, and a step is only consumed right after a
prefetch was issued for exactly the current locus and not yet consumed:
the ghost event trace of every reachable state is a strict alternation
of issue and matching consume events, with at most a single trailing
pending issue, which in an unresolved state is for the current row. -/
theorem prefetch_step_alternation (idx : EbwtIndex) (s : RowChaserState)
    (h : Reaches idx s) :
    okTrace s.trace = true ∧
    (s.done = false →
      ∃ t, s.trace = t ++ [PEvent.issue s.row] ∧ closedTrace t = true) := by
  rcases reaches_protocol_invariant idx s h with ⟨hdone, hunres⟩
  by_cases hd : s.done = true
  · exact ⟨okTrace_of_closed _ (hdone hd), fun hc => by rw [hd] at hc; cases hc⟩
  · rw [Bool.not_eq_true] at hd
    rcases hunres hd with ⟨_, t, htr, hct⟩
    exact ⟨by rw [htr]; exact okTrace_pending t s.row hct, fun _ => ⟨t, htr, hct⟩⟩

/-- Claim C5 witness: the chase of row 7 on the test index right after
`setRow`: one pending prefetch for row 7 on an otherwise empty trace. -/
theorem prefetch_step_alternation_witness :
    okTrace awaitState.trace = true ∧
    (awaitState.done = false →
      ∃ t, awaitState.trace = t ++ [PEvent.issue awaitState.row] ∧
        closedTrace t = true) :=
  prefetch_step_alternation testIdx awaitState (Reaches.start 7 1 awaitState rfl)

/-- Claim C6: the convenience wrappers `toFlatRefOff` and `toRefOff`
return exactly the result of constructing a fresh resolver, calling
`setRow`, calling `advance` until `done`, and reading the resolved flat
offset respectively text position. -/
theorem wrappers_refine_manual_drive (idx : EbwtIndex) (fuel qlen row : Nat) :
    RowChaser.toFlatRefOff idx fuel qlen row = specResolveFlat idx fuel qlen row ∧
    RowChaser.toRefOff idx fuel qlen row = specResolvePos idx fuel qlen row := by
  unfold RowChaser.toFlatRefOff RowChaser.toRefOff specResolveFlat specResolvePos
  simp only [specDrive_eq_chaseLoop]
  exact ⟨trivial, trivial⟩

/-- Claim C7: calling `advance` when the chase is already resolved, or
without a pending (issued and unconsumed) prefetch, fails an assertion
instead of producing a state and an offset. -/
theorem advance_precondition_error (idx : EbwtIndex) (s : RowChaserState)
    (h : s.done = true ∨ s.prepped = false) :
    isAssertFailure (RowChaser.advance idx s) = true := by
  rcases h with h | h
  · simp [RowChaser.advance, h, isAssertFailure]
  · by_cases hd : s.done = true
    · simp [RowChaser.advance, hd, isAssertFailure]
    · rw [Bool.not_eq_true] at hd
      simp [RowChaser.advance, hd, h, isAssertFailure]

/-- Claim C7 witness: `advance` on an already-resolved state fails the
`!done_` assertion. -/
theorem advance_precondition_error_witness :
    isAssertFailure (RowChaser.advance testIdx
      { RowChaser.init with done := true }) = true :=
  advance_precondition_error testIdx { RowChaser.init with done := true }
    (Or.inl rfl)

/-- Claim C8 counterexample: on the corrupted cyclic index, ten
`advance` calls all succeed even though the step count (10) far exceeds
the sampling interval (`2 ^ offRate = 4`); no step-count sanity bound
is ever checked, the chase just continues unresolved. -/
theorem no_step_count_bound :
    cycRun = Except.ok cycState ∧ cycState.done = false ∧
    cycState.jumps = 10 ∧ 2 ^ cycIdx.offRate < cycState.jumps := by
  exact ⟨rfl, rfl, rfl, by decide⟩

/-- Claim C8 (amended): when the backward-step mapping returns the very
row it was given, `advance` fails the `newrow != row_` assertion
instead of continuing; the step count itself is never checked against
a bound. -/
theorem advance_selfstep_assert (idx : EbwtIndex) (s : RowChaserState)
    (hdone : s.done = false) (hprep : s.prepped = true)
    (hself : idx.mapLF (s.sideloc.getD s.row) = s.row) :
    isAssertFailure (RowChaser.advance idx s) = true := by
  simp [RowChaser.advance, hdone, hprep, hself, isAssertFailure]

/-- Claim C8 witness: an index whose backward step maps row 5 to
itself fails the assertion at once. -/
theorem advance_selfstep_assert_witness :
    isAssertFailure (RowChaser.advance { testIdx with mapLF := fun _ => 5 }
      { RowChaser.init with row := 5, prepped := true, sideloc := some 5 }) = true :=
  advance_selfstep_assert { testIdx with mapLF := fun _ => 5 }
    { RowChaser.init with row := 5, prepped := true, sideloc := some 5 }
    rfl rfl rfl

/-- Claim C9: when the resolved flat offset translates across a joined
sequence boundary (`joinedToTextOff` reports sequence id `0xffffffff`),
`off` returns that distinguished "no sequence" id as a normal result,
unchanged, rather than failing. -/
theorem off_preserves_no_sequence (idx : EbwtIndex) (s : RowChaserState)
    (hres : RowChaser.flatOff s ≠ unset)
    (hb : (idx.joinedToTextOff s.qlen (RowChaser.flatOff s)).1 = unset) :
    RowChaser.off idx s =
      Except.ok (unset, (idx.joinedToTextOff s.qlen (RowChaser.flatOff s)).2.1) := by
  simp [RowChaser.off, hres, hb]

/-- Claim C9 witness: the boundary-straddling translation result is
passed through unchanged. -/
theorem off_preserves_no_sequence_witness :
    RowChaser.off noSeqIdx { RowChaser.init with off := 12, qlen := 5 } =
      Except.ok (unset, (noSeqIdx.joinedToTextOff 5 12).2.1) :=
  off_preserves_no_sequence noSeqIdx { RowChaser.init with off := 12, qlen := 5 }
    (by decide) rfl

/-- Claim C10: at every point between public operations while the chase
is unresolved, the stored offset is the reserved value `0xffffffff`, so
`flatOff` called before resolution returns `0xffffffff` and never a
partial or stale result. -/
theorem unresolved_flatOff_unset (idx : EbwtIndex) (s : RowChaserState)
    (h : Reaches idx s) (hd : s.done = false) :
    RowChaser.flatOff s = unset := by
  revert hd
  induction h with
  | start row qlen s h =>
    intro hd
    rcases setRow_ok_fields idx RowChaser.init s row qlen h with ⟨_, _, hcase⟩
    rcases hcase with ⟨hdone, _⟩ | ⟨_, hoff, _⟩
    · rw [hdone] at hd; cases hd
    · exact hoff
  | step s s' hre h' ih =>
    intro hd
    rcases advance_ok_fields idx s s' h' with ⟨hd0, _, _, _, _, _, hcase⟩
    rcases hcase with ⟨hdone, _⟩ | ⟨_, hoff, _, _⟩
    · rw [hdone] at hd; cases hd
    · rw [RowChaser.flatOff, hoff]; exact ih hd0

/-- Claim C10 witness: the chase of row 7 on the test index is
unresolved right after `setRow`, and `flatOff` returns `0xffffffff`. -/
theorem unresolved_flatOff_unset_witness :
    RowChaser.flatOff awaitState = unset :=
  unresolved_flatOff_unset testIdx awaitState
    (Reaches.start 7 1 awaitState rfl) rfl
